import Mathlib

/-!
Verification of the record-matching / enrichment engine of the `lost_years`
package (files `lost_years/utils.py`, `lost_years/ssa.py`, `lost_years/who.py`,
`lost_years/hld.py`) against its natural-language specification.

The pandas code is shallowly embedded: a DataFrame is a list of rows, a row an
association list from column name to cell, and every fallible Python operation
returns `Except PyError`.  Reference life tables are lists of typed records.
Floating-point life-expectancy values are modelled as integers: no claim
depends on fractional arithmetic, the values are only compared for equality
and carried into the output.
-/

namespace LostYears

/-- A cell of a pandas DataFrame: an integer, a string, or a missing value
(NaN / None).  -/
inductive Cell where
  | int : Int → Cell
  | str : String → Cell
  | null : Cell
deriving DecidableEq

/-- A DataFrame row, as seen by `df.iterrows()`: an association list from
column name to cell value. -/
abbrev Row := List (String × Cell)

/-- A pandas DataFrame: the ordered column names and the ordered rows. -/
structure DF where
  columns : List String
  rows : List Row
deriving DecidableEq

/-- The Python exceptions the matching code can raise. -/
inductive PyError where
  | keyError : String → PyError
  | valueError : String → PyError
  | attributeError : String → PyError
  | typeError : String → PyError
  | fileNotFoundError : String → PyError
deriving DecidableEq

/-- ASCII lower-casing of one character (the reference data and query codes
the matching logic compares are ASCII). -/
def lowerChar (c : Char) : Char :=
  if 65 ≤ c.toNat && c.toNat ≤ 90 then Char.ofNat (c.toNat + 32) else c

/-- ASCII upper-casing of one character. -/
def upperChar (c : Char) : Char :=
  if 97 ≤ c.toNat && c.toNat ≤ 122 then Char.ofNat (c.toNat - 32) else c

/-- Python `s.lower()` over the ASCII range. -/
def strLower (s : String) : String := ⟨s.data.map lowerChar⟩

/-- Python `s.upper()` over the ASCII range. -/
def strUpper (s : String) : String := ⟨s.data.map upperChar⟩

/-- Row indexing `r[col]`: a missing key raises `KeyError`. -/
def getItem (r : Row) (k : String) : Except PyError Cell :=
  match r.lookup k with
  | some c => .ok c
  | none => .error (.keyError k)

/-- Python `x.lower()`: only strings have the attribute; any other value
raises `AttributeError`. -/
def lowerCell (c : Cell) : Except PyError String :=
  match c with
  | .str s => .ok (strLower s)
  | _ => .error (.attributeError "lower")

/-- Python `str(x)` on a cell (NaN prints as `nan`). -/
def pyStr (c : Cell) : String :=
  match c with
  | .int n => toString n
  | .str s => s
  | .null => "nan"

/-- Equality of fallible results is decidable componentwise. -/
instance {ε α : Type} [DecidableEq ε] [DecidableEq α] : DecidableEq (Except ε α) :=
  fun a b =>
    match a, b with
    | .ok x, .ok y =>
        if h : x = y then isTrue (by rw [h])
        else isFalse (fun hc => h (Except.ok.inj hc))
    | .ok _, .error _ => isFalse (fun hc => Except.noConfusion hc)
    | .error _, .ok _ => isFalse (fun hc => Except.noConfusion hc)
    | .error x, .error y =>
        if h : x = y then isTrue (by rw [h])
        else isFalse (fun hc => h (Except.error.inj hc))

/-- Scan behind `uniqueFirst`, carrying the set of already-seen values. -/
def uniqueFirstAux (seen : List Int) : List Int → List Int
  | [] => []
  | x :: xs =>
      if x ∈ seen then uniqueFirstAux seen xs
      else x :: uniqueFirstAux (x :: seen) xs

/-- `pandas.Series.unique`: the distinct values of a column, in order of
first appearance. -/
def uniqueFirst (l : List Int) : List Int := uniqueFirstAux [] l

/-- Scan of `min(range(len(l)), key=lambda i: abs(l[i] - c))` over the tail:
the current best is replaced only on a strictly smaller distance, so on ties
the earlier element wins. -/
def closestAux (c best : Int) : List Int → Int
  | [] => best
  | y :: ys =>
      if (y - c).natAbs < (best - c).natAbs then closestAux c y ys
      else closestAux c best ys

/-- `utils.closest`: the element of `lst` with minimum absolute difference to
`c`, ties broken toward the first element in iteration order; `min` raises
`ValueError` on an empty sequence. -/
def closest (l : List Int) (c : Int) : Except PyError Int :=
  match l with
  | [] => .error (.valueError "min arg is an empty sequence")
  | x :: xs => .ok (closestAux c x xs)

/-- `closest` as called on a reference column against a query cell.  The
empty-sequence `ValueError` fires before the key function ever runs, so it
precedes any `TypeError` from a non-numeric query value.  A NaN query value
never compares smaller, so `min` keeps the first element. -/
def closestCell (l : List Int) (c : Cell) : Except PyError Int :=
  match l with
  | [] => .error (.valueError "min arg is an empty sequence")
  | x :: xs =>
      match c with
      | .int n => .ok (closestAux n x xs)
      | .null => .ok x
      | .str _ => .error (.typeError "unsupported operand type for sub")

/-- Result of the shared precondition loop over the required keys. -/
inductive Resolved where
  | mapping : List (String × String) → Resolved
  | missingColumn : Resolved
deriving DecidableEq

/-- `col if cols is None else cols[col]`: the dictionary lookup raises
`KeyError` when the supplied mapping omits the required key. -/
def colsLookup (cols : Option (List (String × String))) (c : String) :
    Except PyError String :=
  match cols with
  | none => .ok c
  | some m =>
      match m.lookup c with
      | some t => .ok t
      | none => .error (.keyError c)

/-- The precondition loop shared by the three sources: for each required key
in order, look up the target column, and abort — the caller then returns the
input unchanged after a logged warning — when the target column is not among
the DataFrame columns. -/
def resolveCols : List String → Option (List (String × String)) → List String →
    Except PyError Resolved
  | [], _, _ => .ok (.mapping [])
  | c :: cs, cols, dfColumns =>
      match colsLookup cols c with
      | .error e => .error e
      | .ok t =>
          if t ∈ dfColumns then
            match resolveCols cs cols dfColumns with
            | .error e => .error e
            | .ok .missingColumn => .ok .missingColumn
            | .ok (.mapping m) => .ok (.mapping ((c, t) :: m))
          else .ok .missingColumn

/-- Column of the built `df_cols` mapping for a required key. -/
def colGet (m : List (String × String)) (k : String) : String :=
  (m.lookup k).getD k

/-- Null cells for the appended columns of an unmatched row, as a left join
leaves NaN where the right side has no row for the index. -/
def nullRow (outCols : List String) : Row :=
  outCols.map (fun c => (c, Cell.null))

/-- Rows the out-frame holds for positional index `i` (in out-frame order). -/
def gatherIdx (blocks : List (Nat × List Row)) (i : Nat) : List Row :=
  ((blocks.filter (fun b => b.1 == i)).map (fun b => b.2)).flatten

/-- `df.join(out_df)`: a left join on the positional index.  A row with no
out-frame rows is kept with null cells; a row with several out-frame rows is
duplicated once per match, exactly as pandas aligns a non-unique right index. -/
def joinAux (outCols : List String) (blocks : List (Nat × List Row)) :
    Nat → List Row → List Row
  | _, [] => []
  | i, r :: rs =>
      (match gatherIdx blocks i with
       | [] => [r ++ nullRow outCols]
       | ms => ms.map (fun m => r ++ m)) ++ joinAux outCols blocks (i + 1) rs

/-- Shared shape of the three per-row loops: run the per-record matcher on
each row in order (the first raised exception aborts the whole operation),
collecting each record's out-frame rows with its positional index.  When
`keepEmpty` is false an empty result is skipped, as the SSA loop only appends
non-empty frames. -/
def buildBlocks (f : Row → Except PyError (List Row)) (keepEmpty : Bool) :
    Nat → List Row → Except PyError (List (Nat × List Row))
  | _, [] => .ok []
  | i, r :: rs =>
      match f r with
      | .error e => .error e
      | .ok out =>
          match buildBlocks f keepEmpty (i + 1) rs with
          | .error e => .error e
          | .ok bs => .ok (if out.isEmpty && !keepEmpty then bs else (i, out) :: bs)

/-! ### SSA source (`ssa.py`) -/

/-- One row of the normalised SSA reference table (`ssa.csv` restricted to
`SSA_COLS`): sex does not filter rows, it selects which life-expectancy
column is read. -/
structure SSARow where
  age : Int
  year : Int
  male_life_expectancy : Int
  female_life_expectancy : Int
deriving DecidableEq

/-- `r[df_cols["sex"]].lower() in ["m", "male"]` decides the column to read;
a non-string sex value raises `AttributeError` at `.lower()`. -/
def ssaNormalizeSex (c : Cell) : Except PyError Bool :=
  match c with
  | .str s => .ok ((strLower s) == "m" || (strLower s) == "male")
  | _ => .error (.attributeError "lower")

/-- One iteration of the SSA row loop: pick the life-expectancy column from
the sex value, then narrow the reference table to the rows whose age equals
the distinct age value closest to the query age, then likewise for year
within the survivors.  Returns the column flag and all surviving rows. -/
def ssaMatchRecord (ref : List SSARow) (ageCol sexCol yearCol : String) (r : Row) :
    Except PyError (Bool × List SSARow) :=
  match getItem r sexCol with
  | .error e => .error e
  | .ok sexCell =>
      match ssaNormalizeSex sexCell with
      | .error e => .error e
      | .ok male =>
          match getItem r ageCol with
          | .error e => .error e
          | .ok qa =>
              match closestCell (uniqueFirst (ref.map (fun x => x.age))) qa with
              | .error e => .error e
              | .ok a =>
                  let s1 := ref.filter (fun x => x.age == a)
                  match getItem r yearCol with
                  | .error e => .error e
                  | .ok qy =>
                      match closestCell (uniqueFirst (s1.map (fun x => x.year))) qy with
                      | .error e => .error e
                      | .ok y => .ok (male, s1.filter (fun x => x.year == y))

/-- A surviving SSA row renamed to the tagged output columns. -/
def ssaOutRow (male : Bool) (x : SSARow) : Row :=
  [("ssa_age", Cell.int x.age), ("ssa_year", Cell.int x.year),
   ("ssa_life_expectancy",
     Cell.int (if male then x.male_life_expectancy else x.female_life_expectancy))]

def ssaOutCols : List String := ["ssa_age", "ssa_year", "ssa_life_expectancy"]

def SSA_REQUIRED : List String := ["age", "sex", "year"]

/-- `LostYearsSSAData.lost_years_ssa`.  The reference table is `none` when
`pd.read_csv(SSA_DATA)` cannot read the resource, in which case the error
propagates: the call is not guarded.  After the loop, assigning
`index_list` to the concatenated out-frame requires one frame row per kept
record, otherwise pandas raises a length-mismatch `ValueError`; with no kept
record the join against an empty frame returns the input rows with no new
columns. -/
def lost_years_ssa (ref : Option (List SSARow)) (df : DF)
    (cols : Option (List (String × String))) : Except PyError DF :=
  match resolveCols SSA_REQUIRED cols df.columns with
  | .error e => .error e
  | .ok .missingColumn => .ok df
  | .ok (.mapping m) =>
      match ref with
      | none => .error (.fileNotFoundError "ssa.csv")
      | some refT =>
          match buildBlocks
              (fun r =>
                (ssaMatchRecord refT (colGet m "age") (colGet m "sex") (colGet m "year") r).map
                  (fun p => p.2.map (ssaOutRow p.1)))
              false 0 df.rows with
          | .error e => .error e
          | .ok bs =>
              if bs.isEmpty then .ok df
              else if bs.all (fun b => b.2.length == 1) then
                .ok ⟨df.columns ++ ssaOutCols, joinAux ssaOutCols bs 0 df.rows⟩
              else .error (.valueError "Length of values does not match length of index")

/-! ### WHO source (`who.py`) -/

/-- One row of the normalised WHO reference table after loading, translation
and `convert_agegroup`. -/
structure WHORow where
  country : String
  year : Int
  sex : String
  age : Int
  life_expectancy : Int
deriving DecidableEq

/-- `'MLE' if c.lower() in ['m', 'male', 'mle'] else 'FMLE'`; a non-string
raises `AttributeError` at `.lower()`. -/
def whoNormalizeSex (c : Cell) : Except PyError String :=
  match c with
  | .str s =>
      .ok (if (strLower s) == "m" || (strLower s) == "male" || (strLower s) == "mle"
           then "MLE" else "FMLE")
  | _ => .error (.attributeError "lower")

/-- Rename a row key, as `df.rename(columns=...)` does on every occurrence. -/
def renameKey (r : Row) (a b : String) : Row :=
  r.map (fun p => if p.1 == a then (b, p.2) else p)

/-- `df[k] = v` on one row: overwrite an existing column, else append it. -/
def setKey (r : Row) (k : String) (v : Cell) : Row :=
  if r.any (fun p => p.1 == k) then r.map (fun p => if p.1 == k then (k, v) else p)
  else r ++ [(k, v)]

/-- `del df[k]` on one row. -/
def delKey (r : Row) (k : String) : Row :=
  r.filter (fun p => !(p.1 == k))

/-- The WHO pre-loop mutation of one query row: rename the mapped sex column
to `__sex`, then store the normalised code in a fresh `sex` column. -/
def whoPrepRow (sexCol : String) (r : Row) : Except PyError Row :=
  let r1 := renameKey r sexCol "__sex"
  match getItem r1 "__sex" with
  | .error e => .error e
  | .ok c =>
      match whoNormalizeSex c with
      | .error e => .error e
      | .ok s => .ok (setKey r1 "sex" (Cell.str s))

def whoPrepRows (sexCol : String) : List Row → Except PyError (List Row)
  | [] => .ok []
  | r :: rs =>
      match whoPrepRow sexCol r with
      | .error e => .error e
      | .ok r2 =>
          match whoPrepRows sexCol rs with
          | .error e => .error e
          | .ok rs2 => .ok (r2 :: rs2)

/-- The post-loop restoration of one query row: drop the temporary `sex`
column, then rename `__sex` back to the mapped sex column. -/
def whoRestoreRow (sexCol : String) (r : Row) : Row :=
  renameKey (delKey r "sex") "__sex" sexCol

/-- One iteration of the WHO row loop over the mutated frame: filter by
case-insensitive country equality, nearest distinct age, case-insensitive sex
equality, nearest distinct year — each step narrowing the previous survivors.
Note `r[df_cols["sex"]]` reads the mutated row, where the mapped sex column
has been renamed to `__sex` and the normalised code lives in `sex`. -/
def whoMatchRecord (ref : List WHORow) (countryCol ageCol sexCol yearCol : String)
    (r : Row) : Except PyError (List WHORow) :=
  match getItem r countryCol with
  | .error e => .error e
  | .ok qc =>
      match lowerCell qc with
      | .error e => .error e
      | .ok c0 =>
          let s1 := ref.filter (fun x => (strLower x.country) == c0)
          match getItem r ageCol with
          | .error e => .error e
          | .ok qa =>
              match closestCell (uniqueFirst (s1.map (fun x => x.age))) qa with
              | .error e => .error e
              | .ok a =>
                  let s2 := s1.filter (fun x => x.age == a)
                  match getItem r sexCol with
                  | .error e => .error e
                  | .ok qs =>
                      match lowerCell qs with
                      | .error e => .error e
                      | .ok sl =>
                          let s3 := s2.filter (fun x => (strLower x.sex) == sl)
                          match getItem r yearCol with
                          | .error e => .error e
                          | .ok qy =>
                              match closestCell (uniqueFirst (s3.map (fun x => x.year))) qy with
                              | .error e => .error e
                              | .ok y => .ok (s3.filter (fun x => x.year == y))

/-- A surviving WHO row under the `who_` tagged column names (the relative
order of the five columns is immaterial to every claim). -/
def whoOutRow (x : WHORow) : Row :=
  [("who_country", Cell.str x.country), ("who_year", Cell.int x.year),
   ("who_sex", Cell.str x.sex), ("who_age", Cell.int x.age),
   ("who_life_expectancy", Cell.int x.life_expectancy)]

def whoOutCols : List String :=
  ["who_country", "who_year", "who_sex", "who_age", "who_life_expectancy"]

def WHO_REQUIRED : List String := ["country", "age", "sex", "year"]

/-- `LostYearsWHOData.lost_years_who`.  The unguarded `pd.read_csv(WHO_DATA)`
propagates a missing-resource error.  With zero query rows the accumulated
out-frame never acquires an `index` column, so `out_df.set_index('index')`
raises `KeyError`; otherwise the mutated sex columns are restored and the
out-frame is left-joined onto the query rows. -/
def lost_years_who (ref : Option (List WHORow)) (df : DF)
    (cols : Option (List (String × String))) : Except PyError DF :=
  match resolveCols WHO_REQUIRED cols df.columns with
  | .error e => .error e
  | .ok .missingColumn => .ok df
  | .ok (.mapping m) =>
      match ref with
      | none => .error (.fileNotFoundError "who-lt.csv.gz")
      | some refT =>
          match whoPrepRows (colGet m "sex") df.rows with
          | .error e => .error e
          | .ok rows2 =>
              match buildBlocks
                  (fun r =>
                    (whoMatchRecord refT (colGet m "country") (colGet m "age")
                        (colGet m "sex") (colGet m "year") r).map
                      (fun s => s.map whoOutRow))
                  true 0 rows2 with
              | .error e => .error e
              | .ok bs =>
                  if rows2.isEmpty then .error (.keyError "index")
                  else
                    .ok ⟨df.columns ++ whoOutCols,
                         joinAux whoOutCols bs 0 (rows2.map (whoRestoreRow (colGet m "sex")))⟩

/-! ### HLD source (`hld.py`) -/

/-- One row of the normalised HLD reference table: `Sex` mapped to `M`/`F`,
numeric fields coerced and NaN rows dropped by the loader. -/
structure HLDRow where
  country : String
  year : Int
  sex : String
  age : Int
  life_expectancy : Int
deriving DecidableEq

/-- `"M" if str(x).lower() in ["m", "male", "1"] else "F"` — total over every
value because of the `str(x)` conversion. -/
def hldNormalizeSex (c : Cell) : String :=
  if (strLower (pyStr c)) == "m" || (strLower (pyStr c)) == "male" || (strLower (pyStr c)) == "1"
  then "M" else "F"

/-- Character-list test that `n` occurs at the head of `h`. -/
def leadMatch : List Char → List Char → Bool
  | [], _ => true
  | _ :: _, [] => false
  | a :: as, b :: bs => a == b && leadMatch as bs

/-- Character-list substring test. -/
def hasSubList (n : List Char) : List Char → Bool
  | [] => n.isEmpty
  | c :: t => leadMatch n (c :: t) || hasSubList n t

/-- Case-insensitive substring containment — the spec's wording for the HLD
country fallback.  The program's fallback is pandas `str.contains` with its
default `regex=True`, and the pattern is the caller's query value: that
coincides with literal substring containment exactly when the query value
contains no regex metacharacter (`RegexFree`), which holds for the intended
ISO-like country codes.  A metacharacter-bearing query value makes the
program select rows by regex search instead (`reSearchDotLit` models the
literal-and-dot fragment of that; see the C9 counterexample), and an invalid
pattern raises `re.error`; neither behaviour is represented by this literal
model, so claims about which rows the fallback selects are stated only on
the `RegexFree` fragment. -/
def strContainsSub (hay needle : String) : Bool :=
  hasSubList needle.toList hay.toList

/-- The regex metacharacters of Python `re`, by code point:
dot, caret, dollar, star, plus, question mark, both braces, both square
brackets, backslash, pipe, both parentheses. -/
def reMetachars : List Char :=
  [46, 94, 36, 42, 43, 63, 123, 125, 91, 93, 92, 124, 40, 41].map Char.ofNat

/-- A pattern string with no regex metacharacter: such a pattern is a valid
regex, cannot raise `re.error`, and `re.search` on it is literal substring
search. -/
def RegexFree (s : String) : Bool :=
  s.toList.all (fun c => !(reMetachars.contains c))

/-- The dot metacharacter (code point 46). -/
def dotChar : Char := Char.ofNat 46

/-- Newline (code point 10), which the dot does not match under default
`re` flags. -/
def nlChar : Char := Char.ofNat 10

/-- Head match of `re.search` for the literal-and-dot pattern fragment: a
dot in the pattern matches any character except newline, every other pattern
character matches itself.  On this fragment the model is exact Python `re`
semantics. -/
def reLeadMatch : List Char → List Char → Bool
  | [], _ => true
  | _ :: _, [] => false
  | p :: ps, h :: hs => ((p == dotChar && !(h == nlChar)) || p == h) && reLeadMatch ps hs

/-- `re.search` over the literal-and-dot fragment: the pattern matches at
some position of the hay. -/
def reSearchAux (p : List Char) : List Char → Bool
  | [] => p.isEmpty
  | c :: t => reLeadMatch p (c :: t) || reSearchAux p t

/-- `bool(re.search(pattern, hay))` for a pattern made of literal characters
and dots — the semantics `str.contains(pattern)` actually applies to such a
pattern under its default `regex=True`. -/
def reSearchDotLit (pattern hay : String) : Bool :=
  reSearchAux pattern.toList hay.toList

/-- Country candidate selection of the HLD matcher: the case-insensitively
equal rows, falling back to `str.contains` of the query value in the
reference country only when the exact-match set is empty.  The fallback is
modelled by the literal-substring predicate, faithful for `RegexFree` query
values; for metacharacter-bearing query values the program's regex fallback
selects different rows (or raises), which this model does not represent. -/
def hldCountryMatches (ref : List HLDRow) (cv : String) : List HLDRow :=
  let exact := ref.filter (fun x => (strUpper x.country) == cv)
  if exact.isEmpty then ref.filter (fun x => strContainsSub (strUpper x.country) cv)
  else exact

/-- The HLD pre-loop step on the copied frame: append the normalised
`__temp_sex` column (total, so the only possible failure is a missing
mapped sex key in the row). -/
def hldPrepRow (sexCol : String) (r : Row) : Except PyError Row :=
  match getItem r sexCol with
  | .error e => .error e
  | .ok c => .ok (setKey r "__temp_sex" (Cell.str (hldNormalizeSex c)))

def hldPrepRows (sexCol : String) : List Row → Except PyError (List Row)
  | [] => .ok []
  | r :: rs =>
      match hldPrepRow sexCol r with
      | .error e => .error e
      | .ok r2 =>
          match hldPrepRows sexCol rs with
          | .error e => .error e
          | .ok rs2 => .ok (r2 :: rs2)

/-- One iteration of the HLD row loop: country candidates first (`none` on an
empty candidate set reproduces the explicit all-missing row), then
case-insensitive sex equality, nearest distinct age, nearest distinct year. -/
def hldMatchRecord (ref : List HLDRow) (countryCol ageCol yearCol : String) (r : Row) :
    Except PyError (Option (List HLDRow)) :=
  match getItem r countryCol with
  | .error e => .error e
  | .ok qc =>
      let cand := hldCountryMatches ref ((strUpper (pyStr qc)))
      if cand.isEmpty then .ok none
      else
        match getItem r "__temp_sex" with
        | .error e => .error e
        | .ok qs =>
            let s1 := cand.filter (fun x => (strUpper x.sex) == (strUpper (pyStr qs)))
            match getItem r ageCol with
            | .error e => .error e
            | .ok qa =>
                match closestCell (uniqueFirst (s1.map (fun x => x.age))) qa with
                | .error e => .error e
                | .ok a =>
                    let s2 := s1.filter (fun x => x.age == a)
                    match getItem r yearCol with
                    | .error e => .error e
                    | .ok qy =>
                        match closestCell (uniqueFirst (s2.map (fun x => x.year))) qy with
                        | .error e => .error e
                        | .ok y => .ok (some (s2.filter (fun x => x.year == y)))

/-- The first surviving HLD row under the `hld_` tagged column names. -/
def hldOutRowSome (x : HLDRow) : Row :=
  [("hld_country", Cell.str x.country), ("hld_age", Cell.int x.age),
   ("hld_sex", Cell.str x.sex), ("hld_year", Cell.int x.year),
   ("hld_life_expectancy", Cell.int x.life_expectancy)]

/-- An all-missing HLD row after `out_df.fillna("")` turned its None cells
into empty strings. -/
def hldEmptyOutRow : Row :=
  [("hld_country", Cell.str ""), ("hld_age", Cell.str ""),
   ("hld_sex", Cell.str ""), ("hld_year", Cell.str ""),
   ("hld_life_expectancy", Cell.str "")]

/-- The single out-frame row one HLD record contributes: the first survivor
(`sdf.iloc[0]`) when some survive, else the all-missing row. -/
def hldBlockRows (res : Option (List HLDRow)) : List Row :=
  match res with
  | none => [hldEmptyOutRow]
  | some s =>
      match s.head? with
      | some x => [hldOutRowSome x]
      | none => [hldEmptyOutRow]

def hldOutCols : List String :=
  ["hld_country", "hld_age", "hld_sex", "hld_year", "hld_life_expectancy"]

/-- `LostYearsHLDData.lost_years_hld`.  A missing, corrupt or empty reference
resource is caught by the loader guards, logged, and the input returned
unchanged (`ref = none`).  With zero query rows the out-frame never acquires
an `index` column, so `out_df.set_index('index')` raises `KeyError`.  The
join runs against the untouched original rows: the sex mutation happened on a
copy. -/
def lost_years_hld (ref : Option (List HLDRow)) (df : DF)
    (cols : Option (List (String × String))) : Except PyError DF :=
  match resolveCols WHO_REQUIRED cols df.columns with
  | .error e => .error e
  | .ok .missingColumn => .ok df
  | .ok (.mapping m) =>
      match ref with
      | none => .ok df
      | some refT =>
          match hldPrepRows (colGet m "sex") df.rows with
          | .error e => .error e
          | .ok rows2 =>
              match buildBlocks
                  (fun r =>
                    (hldMatchRecord refT (colGet m "country") (colGet m "age")
                        (colGet m "year") r).map hldBlockRows)
                  true 0 rows2 with
              | .error e => .error e
              | .ok bs =>
                  if df.rows.isEmpty then .error (.keyError "index")
                  else .ok ⟨df.columns ++ hldOutCols, joinAux hldOutCols bs 0 df.rows⟩

/-- Name the supplied mapping gives a required key, when it has one. -/
def mappedName (cols : Option (List (String × String))) (c : String) : Option String :=
  match cols with
  | none => some c
  | some m => m.lookup c


/-- A query row free of the WHO matcher's two reserved working column names:
it has no `__sex` key, and — unless the mapped sex column is itself `sex` —
no `sex` key either, so the rename / add / drop / rename-back dance restores
the row exactly. -/
def RowCleanFor (sexCol : String) (r : Row) : Prop :=
  (∀ p ∈ r, p.1 ≠ "__sex") ∧ (sexCol ≠ "sex" → ∀ p ∈ r, p.1 ≠ "sex")

instance (sexCol : String) (r : Row) : Decidable (RowCleanFor sexCol r) :=
  inferInstanceAs (Decidable ((∀ p ∈ r, p.1 ≠ "__sex") ∧
    (sexCol ≠ "sex" → ∀ p ∈ r, p.1 ≠ "sex")))

/-- The data-model invariant of the spec for the SSA table: after
de-duplication no two reference rows share the same (age, year) key (sex
selects a column there, it does not key rows). -/
def SSAKeyUniq (ref : List SSARow) : Prop :=
  ref.Pairwise (fun p q => ¬(p.age = q.age ∧ p.year = q.year))

/-- The data-model invariant of the spec for the WHO table: no two reference
rows share the same (country, sex, age, year) key, country and sex compared
case-insensitively as the matcher does. -/
def WHOKeyUniq (ref : List WHORow) : Prop :=
  ref.Pairwise (fun p q =>
    ¬(strLower p.country = strLower q.country ∧ strLower p.sex = strLower q.sex ∧
      p.age = q.age ∧ p.year = q.year))

/-! ### Helper lemmas -/

theorem uniqueFirst_ne_nil (x : Int) (xs : List Int) : uniqueFirst (x :: xs) ≠ [] := by
  simp [uniqueFirst, uniqueFirstAux]

theorem mem_of_mem_uniqueFirstAux (l : List Int) :
    ∀ (seen : List Int) (x : Int), x ∈ uniqueFirstAux seen l → x ∈ l := by
  induction l with
  | nil => intro seen x h; simp [uniqueFirstAux] at h
  | cons a as ih =>
    intro seen x h
    rw [uniqueFirstAux] at h
    by_cases hm : a ∈ seen
    · rw [if_pos hm] at h
      exact List.mem_cons_of_mem _ (ih seen x h)
    · rw [if_neg hm] at h
      rcases List.mem_cons.mp h with rfl | h2
      · exact List.mem_cons_self x as
      · exact List.mem_cons_of_mem _ (ih (a :: seen) x h2)

theorem mem_of_mem_uniqueFirst (l : List Int) (x : Int) (h : x ∈ uniqueFirst l) : x ∈ l :=
  mem_of_mem_uniqueFirstAux l [] x h

theorem closestAux_mem (c b : Int) (l : List Int) : closestAux c b l ∈ b :: l := by
  induction l generalizing b with
  | nil => simp [closestAux]
  | cons y ys ih =>
    rw [closestAux]
    split
    · rcases List.mem_cons.mp (ih y) with h | h
      · simp [h]
      · exact List.mem_cons_of_mem _ (List.mem_cons_of_mem _ h)
    · rcases List.mem_cons.mp (ih b) with h | h
      · simp [h]
      · exact List.mem_cons_of_mem _ (List.mem_cons_of_mem _ h)

theorem closestAux_le (c : Int) (l : List Int) :
    ∀ (b : Int), ∀ x ∈ b :: l, (closestAux c b l - c).natAbs ≤ (x - c).natAbs := by
  induction l with
  | nil =>
    intro b x hx
    rw [List.mem_singleton] at hx
    subst hx
    simp [closestAux]
  | cons y ys ih =>
    intro b x hx
    rw [closestAux]
    split
    · next hlt =>
      rcases List.mem_cons.mp hx with rfl | hx2
      · exact le_of_lt (lt_of_le_of_lt (ih y y (List.mem_cons_self y ys)) hlt)
      · exact ih y x hx2
    · next hge =>
      rcases List.mem_cons.mp hx with rfl | hx2
      · exact ih x x (List.mem_cons_self x ys)
      · rcases List.mem_cons.mp hx2 with rfl | hx3
        · exact le_trans (ih b b (List.mem_cons_self b ys)) (le_of_not_lt hge)
        · exact ih b x (List.mem_cons_of_mem b hx3)

/-- First-winner characterisation of the scan: either the initial best
survives and nothing in the tail beats it, or the result sits at a position
in the tail all of whose predecessors (and the initial best) are strictly
worse. -/
theorem closestAux_first (c b : Int) (l : List Int) :
    (closestAux c b l = b ∧ ∀ x ∈ l, (b - c).natAbs ≤ (x - c).natAbs) ∨
    (∃ l1 l2, l = l1 ++ closestAux c b l :: l2 ∧
      (closestAux c b l - c).natAbs < (b - c).natAbs ∧
      ∀ x ∈ l1, (closestAux c b l - c).natAbs < (x - c).natAbs) := by
  induction l generalizing b with
  | nil => left; exact ⟨rfl, by simp⟩
  | cons y ys ih =>
    rw [closestAux]
    split
    · next hlt =>
      right
      rcases ih y with ⟨heq, hall⟩ | ⟨l1, l2, hsplit, hbetter, hall⟩
      · exact ⟨[], ys, by rw [heq]; rfl, by rw [heq]; exact hlt, by simp⟩
      · refine ⟨y :: l1, l2, congrArg (List.cons y) hsplit, lt_trans hbetter hlt, ?_⟩
        intro x hx
        rcases List.mem_cons.mp hx with rfl | hx2
        · exact hbetter
        · exact hall x hx2
    · next hge =>
      have hyb : (b - c).natAbs ≤ (y - c).natAbs := le_of_not_lt hge
      rcases ih b with ⟨heq, hall⟩ | ⟨l1, l2, hsplit, hbetter, hall⟩
      · left
        refine ⟨heq, ?_⟩
        intro x hx
        rcases List.mem_cons.mp hx with rfl | hx2
        · exact hyb
        · exact hall x hx2
      · right
        refine ⟨y :: l1, l2, congrArg (List.cons y) hsplit, hbetter, ?_⟩
        intro x hx
        rcases List.mem_cons.mp hx with rfl | hx2
        · exact lt_of_lt_of_le hbetter hyb
        · exact hall x hx2


/-- A sublist of a pairwise-distinct list whose members all share one key has
at most one element. -/
theorem sublist_pinned_length_le_one {α : Type} {R : α → α → Prop} {l s : List α}
    (hs : s.Sublist l) (hpw : l.Pairwise (fun a b => ¬ R a b))
    (hp : ∀ x ∈ s, ∀ y ∈ s, R x y) : s.length ≤ 1 := by
  match s, hs, hp with
  | [], _, _ => simp
  | [x], _, _ => simp
  | x :: y :: t, hs, hp =>
    exfalso
    have hpw2 := List.Pairwise.sublist hs hpw
    have hxy := (List.pairwise_cons.mp hpw2).1 y (List.mem_cons_self y t)
    exact hxy (hp x (List.mem_cons_self x (y :: t))
      y (List.mem_cons_of_mem x (List.mem_cons_self y t)))

theorem buildBlocks_indices (f : Row → Except PyError (List Row)) (ke : Bool) :
    ∀ (rows : List Row) (i : Nat) (bs : List (Nat × List Row)),
      buildBlocks f ke i rows = .ok bs →
      (∀ b ∈ bs, i ≤ b.1) ∧ bs.Pairwise (fun b c => b.1 < c.1) := by
  intro rows
  induction rows with
  | nil =>
    intro i bs h
    rw [buildBlocks] at h
    rw [Except.ok.injEq] at h
    subst h
    exact ⟨by simp, List.Pairwise.nil⟩
  | cons r rs ih =>
    intro i bs h
    rw [buildBlocks] at h
    cases hf : f r with
    | error e => rw [hf] at h; exact Except.noConfusion h
    | ok out =>
      rw [hf] at h
      cases hb : buildBlocks f ke (i + 1) rs with
      | error e => rw [hb] at h; exact Except.noConfusion h
      | ok bs2 =>
        rw [hb, Except.ok.injEq] at h
        obtain ⟨hge, hpw⟩ := ih (i + 1) bs2 hb
        subst h
        split
        · exact ⟨fun b hb2 => le_trans (Nat.le_succ i) (hge b hb2), hpw⟩
        · constructor
          · intro b hb2
            rcases List.mem_cons.mp hb2 with rfl | h2
            · exact le_refl i
            · exact le_trans (Nat.le_succ i) (hge b h2)
          · exact List.pairwise_cons.mpr
              ⟨fun b hb2 => Nat.lt_of_succ_le (hge b hb2), hpw⟩

theorem buildBlocks_content (f : Row → Except PyError (List Row)) (ke : Bool) :
    ∀ (rows : List Row) (i : Nat) (bs : List (Nat × List Row)),
      buildBlocks f ke i rows = .ok bs →
      ∀ b ∈ bs, (∃ r ∈ rows, f r = .ok b.2) ∧ (ke = false → b.2 ≠ []) := by
  intro rows
  induction rows with
  | nil =>
    intro i bs h
    rw [buildBlocks, Except.ok.injEq] at h
    subst h
    simp
  | cons r rs ih =>
    intro i bs h
    rw [buildBlocks] at h
    cases hf : f r with
    | error e => rw [hf] at h; exact Except.noConfusion h
    | ok out =>
      rw [hf] at h
      cases hb : buildBlocks f ke (i + 1) rs with
      | error e => rw [hb] at h; exact Except.noConfusion h
      | ok bs2 =>
        rw [hb, Except.ok.injEq] at h
        subst h
        intro b hmem
        split at hmem
        · obtain ⟨⟨r2, hr2, hfr2⟩, hne⟩ := ih (i + 1) bs2 hb b hmem
          exact ⟨⟨r2, List.mem_cons_of_mem r hr2, hfr2⟩, hne⟩
        · next hcond =>
          rcases List.mem_cons.mp hmem with rfl | h2
          · refine ⟨⟨r, List.mem_cons_self r rs, hf⟩, ?_⟩
            intro hke hnil
            rw [hke] at hcond
            simp at hcond
            exact hcond hnil
          · obtain ⟨⟨r2, hr2, hfr2⟩, hne⟩ := ih (i + 1) bs2 hb b h2
            exact ⟨⟨r2, List.mem_cons_of_mem r hr2, hfr2⟩, hne⟩

theorem gatherIdx_length_le_one (bs : List (Nat × List Row))
    (hpw : bs.Pairwise (fun b c => b.1 < c.1))
    (hlen : ∀ b ∈ bs, b.2.length ≤ 1) (j : Nat) :
    (gatherIdx bs j).length ≤ 1 := by
  have hfl : (bs.filter (fun b => b.1 == j)).length ≤ 1 := by
    refine sublist_pinned_length_le_one (R := fun b c => b.1 = c.1)
      (List.filter_sublist bs) (List.Pairwise.imp (fun h => Nat.ne_of_lt h) hpw) ?_
    intro x hx y hy
    have hx2 : x.1 = j := by
      have := (List.mem_filter.mp hx).2
      simpa using this
    have hy2 : y.1 = j := by
      have := (List.mem_filter.mp hy).2
      simpa using this
    rw [hx2, hy2]
  cases hfl2 : bs.filter (fun b => b.1 == j) with
  | nil => simp [gatherIdx, hfl2]
  | cons b t =>
    cases t with
    | nil =>
      have hb : b ∈ bs := List.mem_of_mem_filter (by rw [hfl2]; exact List.mem_cons_self b [])
      simpa [gatherIdx, hfl2] using hlen b hb
    | cons c t2 => rw [hfl2] at hfl; simp at hfl

theorem joinAux_zip (outCols : List String) (blocks : List (Nat × List Row))
    (h : ∀ j, (gatherIdx blocks j).length ≤ 1) :
    ∀ (rows : List Row) (i : Nat), ∃ exts : List Row, exts.length = rows.length ∧
      joinAux outCols blocks i rows = List.zipWith (fun r e => r ++ e) rows exts := by
  intro rows
  induction rows with
  | nil => intro i; exact ⟨[], rfl, rfl⟩
  | cons r rs ih =>
    intro i
    obtain ⟨exts, hlen, heq⟩ := ih (i + 1)
    cases hg : gatherIdx blocks i with
    | nil =>
      refine ⟨nullRow outCols :: exts, by simp [hlen], ?_⟩
      rw [joinAux, hg, heq]
      rfl
    | cons m t =>
      have ht : t = [] := by
        have h2 := h i
        rw [hg] at h2
        simp at h2
        exact h2
      subst ht
      refine ⟨m :: exts, by simp [hlen], ?_⟩
      rw [joinAux, hg, heq]
      rfl

theorem zipWith_append_get :
    ∀ (rs es : List Row) (k : Nat) (hk : k < rs.length)
      (hk2 : k < (List.zipWith (fun r e => r ++ e) rs es).length),
      ∃ ext, (List.zipWith (fun r e => r ++ e) rs es).get ⟨k, hk2⟩ = rs.get ⟨k, hk⟩ ++ ext := by
  intro rs
  induction rs with
  | nil => intro es k hk; simp at hk
  | cons r rs ih =>
    intro es k hk hk2
    cases es with
    | nil => simp at hk2
    | cons e es2 =>
      cases k with
      | zero => exact ⟨e, rfl⟩
      | succ k2 =>
        have hk' : k2 < rs.length := Nat.lt_of_succ_lt_succ hk
        have hk2' : k2 < (List.zipWith (fun r e => r ++ e) rs es2).length := by
          simp only [List.zipWith, List.length_cons] at hk2
          exact Nat.lt_of_succ_lt_succ hk2
        exact ih es2 k2 hk' hk2'

theorem resolveCols_missing :
    ∀ (required : List String) (cols : Option (List (String × String)))
      (dfC : List String),
      (∀ c ∈ required, (mappedName cols c).isSome) →
      (∃ c ∈ required, ∀ t, mappedName cols c = some t → t ∉ dfC) →
      resolveCols required cols dfC = .ok .missingColumn := by
  intro required
  induction required with
  | nil =>
    intro cols dfC hall hex
    simp at hex
  | cons c cs ih =>
    intro cols dfC hall hex
    have hc := hall c (List.mem_cons_self c cs)
    obtain ⟨t, ht⟩ := Option.isSome_iff_exists.mp hc
    have hlkp : colsLookup cols c = .ok t := by
      cases cols with
      | none =>
        simp only [mappedName, Option.some.injEq] at ht
        subst ht
        rfl
      | some m =>
        simp only [mappedName] at ht
        simp [colsLookup, ht]
    rw [resolveCols]
    simp only [hlkp]
    by_cases hin : t ∈ dfC
    · rw [if_pos hin]
      have hex2 : ∃ d ∈ cs, ∀ u, mappedName cols d = some u → u ∉ dfC := by
        rcases hex with ⟨d, hd, hdt⟩
        rcases List.mem_cons.mp hd with rfl | hd2
        · exact absurd hin (hdt t ht)
        · exact ⟨d, hd2, hdt⟩
      rw [ih cols dfC (fun d hd => hall d (List.mem_cons_of_mem c hd)) hex2]
    · rw [if_neg hin]

theorem ssa_survivors_le_one {ref : List SSARow} {aC sC yC : String} {r : Row}
    {male : Bool} {s : List SSARow} (huniq : SSAKeyUniq ref)
    (h : ssaMatchRecord ref aC sC yC r = .ok (male, s)) : s.length ≤ 1 := by
  simp only [ssaMatchRecord] at h
  repeat' split at h
  all_goals try exact Except.noConfusion h
  rw [Except.ok.injEq, Prod.mk.injEq] at h
  obtain ⟨hm, hs⟩ := h
  subst hs
  have huniq2 : ref.Pairwise (fun p q => ¬(p.age = q.age ∧ p.year = q.year)) := huniq
  refine sublist_pinned_length_le_one
    (R := fun p q => p.age = q.age ∧ p.year = q.year)
    ((List.filter_sublist _).trans (List.filter_sublist _)) huniq2 ?_
  intro x hx y hy
  have hx1 := List.mem_filter.mp hx
  have hy1 := List.mem_filter.mp hy
  exact ⟨(eq_of_beq (List.mem_filter.mp hx1.1).2).trans
      (eq_of_beq (List.mem_filter.mp hy1.1).2).symm,
    (eq_of_beq hx1.2).trans (eq_of_beq hy1.2).symm⟩

theorem who_survivors_le_one {ref : List WHORow} {cC aC sC yC : String} {r : Row}
    {s : List WHORow} (huniq : WHOKeyUniq ref)
    (h : whoMatchRecord ref cC aC sC yC r = .ok s) : s.length ≤ 1 := by
  simp only [whoMatchRecord] at h
  repeat' split at h
  all_goals try exact Except.noConfusion h
  rw [Except.ok.injEq] at h
  subst h
  have huniq2 : ref.Pairwise (fun p q =>
      ¬(strLower p.country = strLower q.country ∧ strLower p.sex = strLower q.sex ∧
        p.age = q.age ∧ p.year = q.year)) := huniq
  refine sublist_pinned_length_le_one
    (R := fun p q => strLower p.country = strLower q.country ∧
      strLower p.sex = strLower q.sex ∧ p.age = q.age ∧ p.year = q.year)
    (((List.filter_sublist _).trans (List.filter_sublist _)).trans
      ((List.filter_sublist _).trans (List.filter_sublist _))) huniq2 ?_
  intro x hx y hy
  have hx1 := List.mem_filter.mp hx
  have hy1 := List.mem_filter.mp hy
  have hx2 := List.mem_filter.mp hx1.1
  have hy2 := List.mem_filter.mp hy1.1
  have hx3 := List.mem_filter.mp hx2.1
  have hy3 := List.mem_filter.mp hy2.1
  exact ⟨(eq_of_beq (List.mem_filter.mp hx3.1).2).trans
      (eq_of_beq (List.mem_filter.mp hy3.1).2).symm,
    (eq_of_beq hx2.2).trans (eq_of_beq hy2.2).symm,
    (eq_of_beq hx3.2).trans (eq_of_beq hy3.2).symm,
    (eq_of_beq hx1.2).trans (eq_of_beq hy1.2).symm⟩

theorem hldBlockRows_length (res : Option (List HLDRow)) : (hldBlockRows res).length = 1 := by
  cases res with
  | none => rfl
  | some s =>
    cases s with
    | nil => rfl
    | cons x t => rfl

theorem rename_roundtrip (sexCol : String) (r : Row)
    (hcl : ∀ p ∈ r, p.1 ≠ "__sex") :
    renameKey (renameKey r sexCol "__sex") "__sex" sexCol = r := by
  rw [renameKey, renameKey, List.map_map]
  conv_rhs => rw [← List.map_id r]
  apply List.map_congr_left
  intro q hq
  dsimp only [Function.comp, id]
  by_cases hqs : q.1 = sexCol
  · have hinner : (if (q.1 == sexCol) = true then (("__sex", q.2) : String × Cell) else q) =
        ("__sex", q.2) := if_pos (beq_iff_eq.mpr hqs)
    rw [hinner]
    have houter : ((("__sex", q.2) : String × Cell).1 == "__sex") = true := rfl
    rw [if_pos houter]
    rw [← hqs]
  · have hinner : (if (q.1 == sexCol) = true then (("__sex", q.2) : String × Cell) else q) =
        q := if_neg (by simpa using hqs)
    rw [hinner]
    rw [if_neg (by simpa using hcl q hq)]

theorem who_restore_prep {sexCol : String} {r r2 : Row}
    (hclean : RowCleanFor sexCol r) (hprep : whoPrepRow sexCol r = .ok r2) :
    whoRestoreRow sexCol r2 = r := by
  have hr1 : ∀ p ∈ renameKey r sexCol "__sex", p.1 ≠ "sex" := by
    intro p hp
    rw [renameKey, List.mem_map] at hp
    obtain ⟨q, hq, hfq⟩ := hp
    rw [← hfq]
    by_cases hqs : q.1 = sexCol
    · rw [if_pos (beq_iff_eq.mpr hqs)]
      simp
    · rw [if_neg (by simpa using hqs)]
      by_cases hsc : sexCol = "sex"
      · intro h
        exact hqs (h.trans hsc.symm)
      · exact hclean.2 hsc q hq
  simp only [whoPrepRow] at hprep
  split at hprep
  · exact Except.noConfusion hprep
  · split at hprep
    · exact Except.noConfusion hprep
    · rw [Except.ok.injEq] at hprep
      subst hprep
      rw [whoRestoreRow]
      have hany : (renameKey r sexCol "__sex").any (fun p => p.1 == "sex") = false := by
        rw [List.any_eq_false]
        intro p hp
        simpa using hr1 p hp
      have hsk : ∀ v, setKey (renameKey r sexCol "__sex") "sex" v =
          renameKey r sexCol "__sex" ++ [("sex", v)] := by
        intro v
        rw [setKey, hany]
        simp
      rw [hsk, delKey, List.filter_append]
      have hfr : (renameKey r sexCol "__sex").filter (fun p => !(p.1 == "sex")) =
          renameKey r sexCol "__sex" := by
        apply List.filter_eq_self.mpr
        intro p hp
        simpa using hr1 p hp
      rw [hfr]
      have hfs : ∀ v, (([("sex", v)] : Row)).filter (fun p => !(p.1 == "sex")) = [] := by
        intro v
        rfl
      rw [hfs, List.append_nil]
      exact rename_roundtrip sexCol r hclean.1

theorem whoPrepRows_restore (sexCol : String) :
    ∀ (rows rows2 : List Row), (∀ r ∈ rows, RowCleanFor sexCol r) →
      whoPrepRows sexCol rows = .ok rows2 →
      rows2.map (whoRestoreRow sexCol) = rows := by
  intro rows
  induction rows with
  | nil =>
    intro rows2 hc h
    rw [whoPrepRows, Except.ok.injEq] at h
    subst h
    rfl
  | cons r rs ih =>
    intro rows2 hc h
    rw [whoPrepRows] at h
    cases hp : whoPrepRow sexCol r with
    | error e => rw [hp] at h; exact Except.noConfusion h
    | ok r2 =>
      rw [hp] at h
      cases hps : whoPrepRows sexCol rs with
      | error e => rw [hps] at h; exact Except.noConfusion h
      | ok rs2 =>
        rw [hps, Except.ok.injEq] at h
        subst h
        rw [List.map_cons, who_restore_prep (hc r (List.mem_cons_self r rs)) hp,
          ih rs2 (fun q hq => hc q (List.mem_cons_of_mem r hq)) hps]

/-! ### Claims -/

/-- C1: for every non-empty list of numeric values and every query value `c`,
`closest` returns the element of the list minimising the absolute difference
to `c`; when two elements are equidistant from `c`, the one encountered first
in iteration order is returned (every earlier element is strictly farther),
deterministically.  In particular, for values `[1, 2, 5, 10]` and query `4` it
returns `5`, and for `[1, 3]` and query `2` it returns `1`. -/
theorem c1_closest_nearest_first_tie :
    (∀ (l : List Int) (c : Int), l ≠ [] →
      ∃ v l1 l2, closest l c = .ok v ∧ l = l1 ++ v :: l2 ∧
        (∀ x ∈ l, (v - c).natAbs ≤ (x - c).natAbs) ∧
        (∀ x ∈ l1, (v - c).natAbs < (x - c).natAbs)) ∧
    closest [1, 2, 5, 10] 4 = .ok 5 ∧ closest [1, 3] 2 = .ok 1 := by
  refine ⟨?_, by decide, by decide⟩
  intro l c hne
  match l, hne with
  | x :: xs, _ =>
    refine ⟨closestAux c x xs, ?_⟩
    rcases closestAux_first c x xs with ⟨heq, hall⟩ | ⟨l1, l2, hsplit, hbetter, hall⟩
    · refine ⟨[], xs, rfl, by rw [heq]; rfl, ?_, by simp⟩
      intro t ht
      exact closestAux_le c xs x t ht
    · refine ⟨x :: l1, l2, rfl, congrArg (List.cons x) hsplit, ?_, ?_⟩
      · intro t ht
        exact closestAux_le c xs x t ht
      · intro t ht
        rcases List.mem_cons.mp ht with rfl | ht2
        · exact hbetter
        · exact hall t ht2

/-- Witness for C1 at the tie-break input `[1, 3]` with query `2`. -/
theorem c1_closest_witness :
    ∃ v l1 l2, closest [1, 3] 2 = .ok v ∧ ([1, 3] : List Int) = l1 ++ v :: l2 ∧
      (∀ x ∈ ([1, 3] : List Int), (v - 2).natAbs ≤ (x - 2).natAbs) ∧
      (∀ x ∈ l1, (v - 2).natAbs < (x - 2).natAbs) :=
  c1_closest_nearest_first_tie.1 [1, 3] 2 (by decide)

/-- C4: for every query table lacking at least one required mapped column
(age, sex, year, or country for the country-stratified sources), each of the
three operations returns its input unchanged — the very same DataFrame, no
source-prefixed columns added — after logging a warning; the failure is
operation-level, never a per-row skip.  The hypothesis that the supplied
mapping covers every required key keeps the lookup itself from raising
(which is claim C10's territory). -/
theorem c4_missing_column_unchanged (cols : Option (List (String × String))) :
    (∀ (refT : Option (List SSARow)) (df : DF),
      (∀ c ∈ SSA_REQUIRED, (mappedName cols c).isSome) →
      (∃ c ∈ SSA_REQUIRED, ∀ t, mappedName cols c = some t → t ∉ df.columns) →
      lost_years_ssa refT df cols = .ok df) ∧
    (∀ (refT : Option (List WHORow)) (df : DF),
      (∀ c ∈ WHO_REQUIRED, (mappedName cols c).isSome) →
      (∃ c ∈ WHO_REQUIRED, ∀ t, mappedName cols c = some t → t ∉ df.columns) →
      lost_years_who refT df cols = .ok df) ∧
    (∀ (refT : Option (List HLDRow)) (df : DF),
      (∀ c ∈ WHO_REQUIRED, (mappedName cols c).isSome) →
      (∃ c ∈ WHO_REQUIRED, ∀ t, mappedName cols c = some t → t ∉ df.columns) →
      lost_years_hld refT df cols = .ok df) := by
  refine ⟨?_, ?_, ?_⟩
  · intro refT df hall hex
    rw [lost_years_ssa, resolveCols_missing SSA_REQUIRED cols df.columns hall hex]
  · intro refT df hall hex
    rw [lost_years_who, resolveCols_missing WHO_REQUIRED cols df.columns hall hex]
  · intro refT df hall hex
    rw [lost_years_hld, resolveCols_missing WHO_REQUIRED cols df.columns hall hex]

/-- Witness for C4: tables missing the `age` (resp. `country`) column come
back untouched from all three sources. -/
theorem c4_missing_column_witness :
    lost_years_ssa (some [⟨30, 2020, 50, 55⟩]) ⟨["sex", "year"], []⟩ none =
      .ok ⟨["sex", "year"], []⟩ ∧
    lost_years_who (some [⟨"USA", 2020, "MLE", 30, 70⟩]) ⟨["age", "sex", "year"], []⟩ none =
      .ok ⟨["age", "sex", "year"], []⟩ ∧
    lost_years_hld (some [⟨"USA", 2020, "M", 30, 70⟩]) ⟨["age", "sex", "year"], []⟩ none =
      .ok ⟨["age", "sex", "year"], []⟩ :=
  ⟨(c4_missing_column_unchanged none).1 _ _ (by decide)
      ⟨"age", by decide, fun t ht => by rw [← Option.some.inj ht]; decide⟩,
    (c4_missing_column_unchanged none).2.1 _ _ (by decide)
      ⟨"country", by decide, fun t ht => by rw [← Option.some.inj ht]; decide⟩,
    (c4_missing_column_unchanged none).2.2 _ _ (by decide)
      ⟨"country", by decide, fun t ht => by rw [← Option.some.inj ht]; decide⟩⟩

/-- C5 names a code bug.  The claim (and the spec's Scenario C) promise that a
query row whose filters leave zero candidates — for example country `ZZZ`
absent from the reference — yields an all-missing result for that row only,
with other rows unaffected.  In `who.py` the country filter leaves an empty
frame and the next (numeric age) filter calls `closest` on an empty
`unique()` array, so `min()` raises `ValueError` and the whole batch dies —
the second, perfectly matchable `USA` row is never processed. -/
theorem c5_unmatched_country_raises :
    lost_years_who (some [⟨"USA", 2020, "MLE", 30, 70⟩])
      ⟨["country", "age", "sex", "year"],
       [[("country", Cell.str "ZZZ"), ("age", Cell.int 30),
         ("sex", Cell.str "M"), ("year", Cell.int 2020)],
        [("country", Cell.str "USA"), ("age", Cell.int 30),
         ("sex", Cell.str "M"), ("year", Cell.int 2020)]]⟩ none =
      .error (.valueError "min arg is an empty sequence") := by decide

/-- C6 names a code bug.  The claim (and the spec's Scenario B) promise that a
zero-row query table with the required columns passes through unchanged.  For
`who.py` and `hld.py` the loop then never runs, the accumulated out-frame has
no columns at all, and `out_df.set_index('index')` raises
`KeyError('index')`; only `ssa.py` returns the empty table unchanged. -/
theorem c6_empty_table_raises :
    lost_years_who (some [⟨"USA", 2020, "MLE", 30, 70⟩])
      ⟨["country", "age", "sex", "year"], []⟩ none = .error (.keyError "index") ∧
    lost_years_hld (some [⟨"USA", 2020, "M", 30, 70⟩])
      ⟨["country", "age", "sex", "year"], []⟩ none = .error (.keyError "index") ∧
    lost_years_ssa (some [⟨30, 2020, 50, 55⟩])
      ⟨["age", "sex", "year"], []⟩ none = .ok ⟨["age", "sex", "year"], []⟩ :=
  ⟨by decide, by decide, by decide⟩

/-- Counterexample to C7 as stated: sex normalisation is NOT total over
non-string values in every source.  `ssa.py` and `who.py` call `.lower()`
directly on the value, so the integer `1` raises `AttributeError`; and in
`hld.py`, `str(1).lower() = "1"` is a MALE code, so the non-string `1` maps
to male, not female. -/
theorem c7_nonstring_counterexample :
    ssaNormalizeSex (Cell.int 1) = .error (.attributeError "lower") ∧
    whoNormalizeSex (Cell.int 1) = .error (.attributeError "lower") ∧
    hldNormalizeSex (Cell.int 1) = "M" := by
  refine ⟨rfl, rfl, by decide⟩

/-- C7 as amended: over STRING inputs each source's sex normalisation is
total and never raises — the source-appropriate male codes map to the male
code and every other string maps to the female code (`ssa` accepts `m`/`male`
case-insensitively, and notably maps `"1"` to female; `who` accepts
`m`/`male`/`mle`; `hld` accepts `m`/`male`/`1`).  Only `hld`, via `str(x)`,
is additionally total over arbitrary values, and there the non-string `1`
maps to the male code; `ssa` and `who` raise `AttributeError` on
non-strings. -/
theorem c7_sex_normalization_amended :
    (∀ s : String, ∃ b, ssaNormalizeSex (Cell.str s) = .ok b) ∧
    (∀ s : String, strLower s ≠ "m" → strLower s ≠ "male" →
      ssaNormalizeSex (Cell.str s) = .ok false) ∧
    (ssaNormalizeSex (Cell.str "M") = .ok true ∧ ssaNormalizeSex (Cell.str "m") = .ok true ∧
      ssaNormalizeSex (Cell.str "Male") = .ok true ∧ ssaNormalizeSex (Cell.str "male") = .ok true ∧
      ssaNormalizeSex (Cell.str "1") = .ok false) ∧
    (∀ s : String, ∃ t, whoNormalizeSex (Cell.str s) = .ok t ∧ (t = "MLE" ∨ t = "FMLE")) ∧
    (∀ s : String, strLower s ≠ "m" → strLower s ≠ "male" → strLower s ≠ "mle" →
      whoNormalizeSex (Cell.str s) = .ok "FMLE") ∧
    (whoNormalizeSex (Cell.str "M") = .ok "MLE" ∧ whoNormalizeSex (Cell.str "Male") = .ok "MLE" ∧
      whoNormalizeSex (Cell.str "1") = .ok "FMLE") ∧
    (∀ c : Cell, hldNormalizeSex c = "M" ∨ hldNormalizeSex c = "F") ∧
    (∀ s : String, strLower s ≠ "m" → strLower s ≠ "male" → strLower s ≠ "1" →
      hldNormalizeSex (Cell.str s) = "F") ∧
    (hldNormalizeSex (Cell.str "M") = "M" ∧ hldNormalizeSex (Cell.str "male") = "M" ∧
      hldNormalizeSex (Cell.str "1") = "M" ∧ hldNormalizeSex Cell.null = "F") := by
  refine ⟨?_, ?_, ⟨by decide, by decide, by decide, by decide, by decide⟩,
    ?_, ?_, ⟨by decide, by decide, by decide⟩, ?_, ?_,
    ⟨by decide, by decide, by decide, by decide⟩⟩
  · intro s
    exact ⟨_, rfl⟩
  · intro s h1 h2
    rw [ssaNormalizeSex]
    have e1 : (strLower s == "m") = false := by simpa using h1
    have e2 : (strLower s == "male") = false := by simpa using h2
    rw [e1, e2]
    rfl
  · intro s
    rw [whoNormalizeSex]
    split
    · exact ⟨"MLE", rfl, Or.inl rfl⟩
    · exact ⟨"FMLE", rfl, Or.inr rfl⟩
  · intro s h1 h2 h3
    rw [whoNormalizeSex]
    have e1 : (strLower s == "m") = false := by simpa using h1
    have e2 : (strLower s == "male") = false := by simpa using h2
    have e3 : (strLower s == "mle") = false := by simpa using h3
    rw [e1, e2, e3]
    rfl
  · intro c
    rw [hldNormalizeSex]
    split
    · exact Or.inl rfl
    · exact Or.inr rfl
  · intro s h1 h2 h3
    rw [hldNormalizeSex]
    have e1 : (strLower (pyStr (Cell.str s)) == "m") = false := by simpa [pyStr] using h1
    have e2 : (strLower (pyStr (Cell.str s)) == "male") = false := by simpa [pyStr] using h2
    have e3 : (strLower (pyStr (Cell.str s)) == "1") = false := by simpa [pyStr] using h3
    rw [e1, e2, e3]
    rfl

/-- Witness for C7 as amended, at the unrecognised token `x` and at
`Female` — both map to the female code in every source without raising. -/
theorem c7_sex_normalization_witness :
    ssaNormalizeSex (Cell.str "x") = .ok false ∧
    whoNormalizeSex (Cell.str "x") = .ok "FMLE" ∧
    hldNormalizeSex (Cell.str "x") = "F" ∧
    ssaNormalizeSex (Cell.str "Female") = .ok false :=
  ⟨c7_sex_normalization_amended.2.1 "x" (by decide) (by decide),
    c7_sex_normalization_amended.2.2.2.2.1 "x" (by decide) (by decide) (by decide),
    c7_sex_normalization_amended.2.2.2.2.2.2.2.1 "x" (by decide) (by decide) (by decide),
    c7_sex_normalization_amended.2.1 "Female" (by decide) (by decide)⟩

/-- Counterexample to C8 as stated: a missing reference resource does NOT
degrade gracefully in every source.  `ssa.py` and `who.py` call
`pd.read_csv` on the resource with no guard at all, so a missing file
propagates as an exception the moment the column precondition passes. -/
theorem c8_missing_resource_counterexample :
    lost_years_ssa none ⟨["age", "sex", "year"], []⟩ none =
      .error (.fileNotFoundError "ssa.csv") ∧
    lost_years_who none ⟨["country", "age", "sex", "year"], []⟩ none =
      .error (.fileNotFoundError "who-lt.csv.gz") := ⟨by decide, by decide⟩

/-- C8 as amended: only the `hld` loader guards its resource — a missing,
corrupt or empty HLD file is logged and the input returned unchanged (no
columns added, nothing raised) — while `ssa` and `who` propagate the
read error for every query table whose required columns are present. -/
theorem c8_loader_failure_amended :
    (∀ (df : DF) (cols : Option (List (String × String))) (m : List (String × String)),
      resolveCols WHO_REQUIRED cols df.columns = .ok (.mapping m) →
      lost_years_hld none df cols = .ok df) ∧
    (∀ (df : DF) (cols : Option (List (String × String))) (m : List (String × String)),
      resolveCols SSA_REQUIRED cols df.columns = .ok (.mapping m) →
      lost_years_ssa none df cols = .error (.fileNotFoundError "ssa.csv")) ∧
    (∀ (df : DF) (cols : Option (List (String × String))) (m : List (String × String)),
      resolveCols WHO_REQUIRED cols df.columns = .ok (.mapping m) →
      lost_years_who none df cols = .error (.fileNotFoundError "who-lt.csv.gz")) := by
  refine ⟨?_, ?_, ?_⟩
  · intro df cols m hres
    rw [lost_years_hld, hres]
  · intro df cols m hres
    rw [lost_years_ssa, hres]
  · intro df cols m hres
    rw [lost_years_who, hres]

/-- Witness for C8 as amended, on a one-row table with the default mapping. -/
theorem c8_loader_failure_witness :
    lost_years_hld none ⟨["country", "age", "sex", "year"],
      [[("country", Cell.str "USA"), ("age", Cell.int 30),
        ("sex", Cell.str "M"), ("year", Cell.int 2020)]]⟩ none =
      .ok ⟨["country", "age", "sex", "year"],
        [[("country", Cell.str "USA"), ("age", Cell.int 30),
          ("sex", Cell.str "M"), ("year", Cell.int 2020)]]⟩ ∧
    lost_years_ssa none ⟨["age", "sex", "year"],
      [[("age", Cell.int 30), ("sex", Cell.str "M"), ("year", Cell.int 2020)]]⟩ none =
      .error (.fileNotFoundError "ssa.csv") ∧
    lost_years_who none ⟨["country", "age", "sex", "year"], []⟩ none =
      .error (.fileNotFoundError "who-lt.csv.gz") :=
  ⟨c8_loader_failure_amended.1 _ none
      [("country", "country"), ("age", "age"), ("sex", "sex"), ("year", "year")] (by decide),
    c8_loader_failure_amended.2.1 _ none
      [("age", "age"), ("sex", "sex"), ("year", "year")] (by decide),
    c8_loader_failure_amended.2.2 _ none
      [("country", "country"), ("age", "age"), ("sex", "sex"), ("year", "year")] (by decide)⟩

theorem reLeadMatch_no_dot : ∀ (p h : List Char), (∀ c ∈ p, c ≠ dotChar) →
    reLeadMatch p h = leadMatch p h := by
  intro p
  induction p with
  | nil =>
    intro h hnd
    cases h <;> rfl
  | cons a as ih =>
    intro h hnd
    cases h with
    | nil => rfl
    | cons b bs =>
      rw [reLeadMatch, leadMatch]
      have ha : (a == dotChar) = false := by
        simpa using hnd a (List.mem_cons_self a as)
      rw [ha, ih bs (fun c hc => hnd c (List.mem_cons_of_mem a hc))]
      simp

theorem reSearch_no_dot : ∀ (p h : List Char), (∀ c ∈ p, c ≠ dotChar) →
    reSearchAux p h = hasSubList p h := by
  intro p h hnd
  induction h with
  | nil => rfl
  | cons c t ih =>
    rw [reSearchAux, hasSubList, reLeadMatch_no_dot p (c :: t) hnd, ih]

theorem regexFree_no_dot {s : String} (h : RegexFree s = true) :
    ∀ c ∈ s.toList, c ≠ dotChar := by
  intro c hc hcd
  have h2 : s.toList.all (fun c => !(reMetachars.contains c)) = true := h
  have hall := List.all_eq_true.mp h2 c hc
  rw [hcd] at hall
  have hdm : reMetachars.contains dotChar = true := by decide
  rw [hdm] at hall
  simp at hall

/-- Counterexample to C9 as stated: the program's country fallback is pandas
`str.contains` with its default `regex=True`, and the pattern is the query
value, so it is NOT substring containment on metacharacter-bearing query
values.  At query country `U.S` against reference country `UBS`, Python
evaluates `re.search('U.S', 'UBS')` — the dot matches `B`, so the program
keeps the row — while `U.S` is not a substring of `UBS`, so the claim's
substring reading (and this file's literal model, shown returning the empty
candidate set) drops it.  An invalid pattern such as a lone parenthesis
additionally raises `re.error` in the program. -/
theorem c9_regex_fallback_counterexample :
    reSearchDotLit "U.S" "UBS" = true ∧
    strContainsSub "UBS" "U.S" = false ∧
    hldCountryMatches [⟨"UBS", 2020, "M", 30, 70⟩] "U.S" = [] :=
  ⟨by decide, by decide, by decide⟩

/-- C9 as amended: the HLD country step first takes the reference rows whose
country is case-insensitively equal to the (upper-cased) query value, and the
`str.contains` fallback is consulted only when that exact-match set is empty
— never while an exact match exists, for any query value (the exact test is
plain string equality, no regex is involved there).  Only for query values
free of regex metacharacters — the intended ISO-like country codes — is the
fallback case-insensitive substring containment of the query value in the
reference country: on that fragment `re.search` (modelled exactly by
`reSearchDotLit`) agrees with literal substring containment, as the last
conjunct proves; metacharacter-bearing query values follow regex semantics
instead, or raise `re.error` on an invalid pattern (see the
counterexample). -/
theorem c9_country_exact_before_fallback (ref : List HLDRow) (cv : String) :
    ((∃ x ∈ ref, strUpper x.country = cv) →
      hldCountryMatches ref cv = ref.filter (fun x => strUpper x.country == cv)) ∧
    (RegexFree cv = true → (¬∃ x ∈ ref, strUpper x.country = cv) →
      hldCountryMatches ref cv = ref.filter (fun x => strContainsSub (strUpper x.country) cv)) ∧
    (RegexFree cv = true → ∀ hay : String, reSearchDotLit cv hay = strContainsSub hay cv) := by
  refine ⟨?_, ?_, ?_⟩
  · rintro ⟨x, hx, hxe⟩
    rw [hldCountryMatches]
    have hmem : x ∈ ref.filter (fun x => strUpper x.country == cv) :=
      List.mem_filter.mpr ⟨hx, beq_iff_eq.mpr hxe⟩
    have hne : (ref.filter (fun x => strUpper x.country == cv)).isEmpty = false := by
      cases hfe : ref.filter (fun x => strUpper x.country == cv) with
      | nil => rw [hfe] at hmem; exact absurd hmem (List.not_mem_nil x)
      | cons a t => rfl
    rw [hne]
    rfl
  · intro hrf hnone
    rw [hldCountryMatches]
    have hfe : ref.filter (fun x => strUpper x.country == cv) = [] := by
      rw [List.filter_eq_nil_iff]
      intro a ha
      intro hbeq
      exact hnone ⟨a, ha, eq_of_beq hbeq⟩
    rw [hfe]
    rfl
  · intro hrf hay
    show reSearchAux cv.toList hay.toList = hasSubList cv.toList hay.toList
    exact reSearch_no_dot cv.toList hay.toList (regexFree_no_dot hrf)

/-- Witness for C9 as amended: with reference country `USA`, the exact branch
fires for query `USA`; for the metacharacter-free query `US` the fallback
fires, is substring containment, and agrees with the regex-search model. -/
theorem c9_country_fallback_witness :
    hldCountryMatches [⟨"USA", 2020, "M", 30, 70⟩] "USA" = [⟨"USA", 2020, "M", 30, 70⟩] ∧
    hldCountryMatches [⟨"USA", 2020, "M", 30, 70⟩] "US" = [⟨"USA", 2020, "M", 30, 70⟩] ∧
    reSearchDotLit "US" "USA" = strContainsSub "USA" "US" := by
  refine ⟨?_, ?_, ?_⟩
  · have h := (c9_country_exact_before_fallback [⟨"USA", 2020, "M", 30, 70⟩] "USA").1
      ⟨⟨"USA", 2020, "M", 30, 70⟩, by decide, by decide⟩
    rw [h]
    decide
  · have h := (c9_country_exact_before_fallback [⟨"USA", 2020, "M", 30, 70⟩] "US").2.1
      (by decide) (by decide)
    rw [h]
    decide
  · exact (c9_country_exact_before_fallback [⟨"USA", 2020, "M", 30, 70⟩] "US").2.2
      (by decide) "USA"

/-- Counterexample to C10 as stated: a supplied mapping that omits a required
key does NOT always raise `KeyError`.  With `cols = {"age": "a"}` on a table
that lacks column `a`, the missing-column check on the earlier key fires
first and the operation returns the input unchanged, never reaching the
`cols["sex"]` lookup. -/
theorem c10_partial_mapping_counterexample :
    lost_years_ssa (some [⟨30, 2020, 50, 55⟩]) ⟨["x"], []⟩ (some [("age", "a")]) =
      .ok ⟨["x"], []⟩ := by decide

/-- C10 as amended: a supplied mapping that omits a required key raises
`KeyError` at the first omitted key in the source's fixed key order, provided
every earlier required key maps to a column present in the table (if an
earlier mapped column is absent, the operation instead returns the input
unchanged, as the counterexample shows).  In particular omitting the very
first key always raises. -/
theorem c10_partial_mapping_amended :
    (∀ (refT : Option (List SSARow)) (df : DF) (m : List (String × String)),
      m.lookup "age" = none →
      lost_years_ssa refT df (some m) = .error (.keyError "age")) ∧
    (∀ (refT : Option (List SSARow)) (df : DF) (m : List (String × String)) (t : String),
      m.lookup "age" = some t → t ∈ df.columns → m.lookup "sex" = none →
      lost_years_ssa refT df (some m) = .error (.keyError "sex")) ∧
    (∀ (refT : Option (List WHORow)) (df : DF) (m : List (String × String)),
      m.lookup "country" = none →
      lost_years_who refT df (some m) = .error (.keyError "country")) ∧
    (∀ (refT : Option (List HLDRow)) (df : DF) (m : List (String × String)),
      m.lookup "country" = none →
      lost_years_hld refT df (some m) = .error (.keyError "country")) := by
  have hssa1 : ∀ (df : DF) (m : List (String × String)), m.lookup "age" = none →
      resolveCols SSA_REQUIRED (some m) df.columns = .error (.keyError "age") := by
    intro df m hlk
    show resolveCols ("age" :: ["sex", "year"]) (some m) df.columns = _
    rw [resolveCols]
    have hcl : colsLookup (some m) "age" = .error (.keyError "age") := by
      rw [colsLookup, hlk]
    rw [hcl]
  have hssa2 : ∀ (df : DF) (m : List (String × String)) (t : String),
      m.lookup "age" = some t → t ∈ df.columns → m.lookup "sex" = none →
      resolveCols SSA_REQUIRED (some m) df.columns = .error (.keyError "sex") := by
    intro df m t hlk1 hin hlk2
    show resolveCols ("age" :: ["sex", "year"]) (some m) df.columns = _
    rw [resolveCols]
    have hcl : colsLookup (some m) "age" = .ok t := by
      rw [colsLookup, hlk1]
    rw [hcl]
    dsimp only
    have hrec : resolveCols ("sex" :: ["year"]) (some m) df.columns =
        .error (.keyError "sex") := by
      rw [resolveCols]
      have hcl2 : colsLookup (some m) "sex" = .error (.keyError "sex") := by
        rw [colsLookup, hlk2]
      rw [hcl2]
    rw [if_pos hin, hrec]
  have hwho1 : ∀ (df : DF) (m : List (String × String)), m.lookup "country" = none →
      resolveCols WHO_REQUIRED (some m) df.columns = .error (.keyError "country") := by
    intro df m hlk
    show resolveCols ("country" :: ["age", "sex", "year"]) (some m) df.columns = _
    rw [resolveCols]
    have hcl : colsLookup (some m) "country" = .error (.keyError "country") := by
      rw [colsLookup, hlk]
    rw [hcl]
  refine ⟨?_, ?_, ?_, ?_⟩
  · intro refT df m hlk
    rw [lost_years_ssa, hssa1 df m hlk]
  · intro refT df m t hlk1 hin hlk2
    rw [lost_years_ssa, hssa2 df m t hlk1 hin hlk2]
  · intro refT df m hlk
    rw [lost_years_who, hwho1 df m hlk]
  · intro refT df m hlk
    rw [lost_years_hld, hwho1 df m hlk]

/-- Witness for C10 as amended: `cols = {"age": "a"}` over a table that has
column `a` raises `KeyError('sex')` in the SSA source, and a mapping without
`country` raises `KeyError('country')` in the WHO and HLD sources. -/
theorem c10_partial_mapping_witness :
    lost_years_ssa (some [⟨30, 2020, 50, 55⟩]) ⟨["a"], []⟩ (some [("age", "a")]) =
      .error (.keyError "sex") ∧
    lost_years_who (some [⟨"USA", 2020, "MLE", 30, 70⟩]) ⟨["a"], []⟩ (some [("age", "a")]) =
      .error (.keyError "country") ∧
    lost_years_hld (some [⟨"USA", 2020, "M", 30, 70⟩]) ⟨["a"], []⟩ (some [("age", "a")]) =
      .error (.keyError "country") :=
  ⟨c10_partial_mapping_amended.2.1 _ _ [("age", "a")] "a" rfl (by decide) rfl,
    c10_partial_mapping_amended.2.2.1 _ _ [("age", "a")] rfl,
    c10_partial_mapping_amended.2.2.2 _ _ [("age", "a")] rfl⟩

/-- C2: for every query record that passes all filter steps with a non-empty
candidate set, the matcher's contribution to the output is exactly one
reference row — the first surviving row after all filters — under the
source-tagged column names, never more than one row per query record, for
each of the three sources.  For `ssa` and `who` this rests on the spec's
data-model invariant that the reference table is de-duplicated on its key
(`SSAKeyUniq` / `WHOKeyUniq`); `hld` takes `sdf.iloc[0]` outright. -/
theorem c2_match_single_row :
    (∀ (ref : List SSARow) (aC sC yC : String) (r : Row) (male : Bool) (s : List SSARow),
      SSAKeyUniq ref → ssaMatchRecord ref aC sC yC r = .ok (male, s) → s ≠ [] →
      ∃ x, s = [x] ∧ s.map (ssaOutRow male) = [ssaOutRow male x]) ∧
    (∀ (ref : List WHORow) (cC aC sC yC : String) (r : Row) (s : List WHORow),
      WHOKeyUniq ref → whoMatchRecord ref cC aC sC yC r = .ok s → s ≠ [] →
      ∃ x, s = [x] ∧ s.map whoOutRow = [whoOutRow x]) ∧
    (∀ (ref : List HLDRow) (cC aC yC : String) (r : Row) (s : List HLDRow),
      hldMatchRecord ref cC aC yC r = .ok (some s) → s ≠ [] →
      ∃ x, s.head? = some x ∧ hldBlockRows (some s) = [hldOutRowSome x]) := by
  refine ⟨?_, ?_, ?_⟩
  · intro ref aC sC yC r male s huniq h hne
    have hlen := ssa_survivors_le_one huniq h
    match s, hne, hlen with
    | [x], _, _ => exact ⟨x, rfl, rfl⟩
    | x :: y :: t, _, hlen => simp at hlen
  · intro ref cC aC sC yC r s huniq h hne
    have hlen := who_survivors_le_one huniq h
    match s, hne, hlen with
    | [x], _, _ => exact ⟨x, rfl, rfl⟩
    | x :: y :: t, _, hlen => simp at hlen
  · intro ref cC aC yC r s h hne
    match s, hne with
    | x :: t, _ => exact ⟨x, rfl, rfl⟩

/-- Witness for C2: a singleton reference table and a concrete query record
in each source. -/
theorem c2_match_single_row_witness :
    (∃ x, ([⟨30, 2020, 50, 55⟩] : List SSARow) = [x] ∧
      List.map (ssaOutRow true) [⟨30, 2020, 50, 55⟩] = [ssaOutRow true x]) ∧
    (∃ x, ([⟨"USA", 2020, "MLE", 30, 70⟩] : List WHORow) = [x] ∧
      List.map whoOutRow [⟨"USA", 2020, "MLE", 30, 70⟩] = [whoOutRow x]) ∧
    (∃ x, ([⟨"USA", 2020, "M", 30, 70⟩] : List HLDRow).head? = some x ∧
      hldBlockRows (some [⟨"USA", 2020, "M", 30, 70⟩]) = [hldOutRowSome x]) :=
  ⟨c2_match_single_row.1 [⟨30, 2020, 50, 55⟩] "age" "sex" "year"
      [("age", Cell.int 31), ("sex", Cell.str "M"), ("year", Cell.int 2019)] true
      [⟨30, 2020, 50, 55⟩] (by simp [SSAKeyUniq]) (by decide) (by decide),
    c2_match_single_row.2.1 [⟨"USA", 2020, "MLE", 30, 70⟩] "country" "age" "sex" "year"
      [("country", Cell.str "usa"), ("age", Cell.int 31),
       ("sex", Cell.str "MLE"), ("year", Cell.int 2019)]
      [⟨"USA", 2020, "MLE", 30, 70⟩] (by simp [WHOKeyUniq]) (by decide) (by decide),
    c2_match_single_row.2.2 [⟨"USA", 2020, "M", 30, 70⟩] "country" "age" "year"
      [("country", Cell.str "USA"), ("age", Cell.int 31),
       ("year", Cell.int 2019), ("__temp_sex", Cell.str "M")]
      [⟨"USA", 2020, "M", 30, 70⟩] (by decide) (by decide)⟩

/-- Counterexample to C3 as stated: on a zero-row query table with the
required columns present, `hld.py` (like `who.py`) does not return a table at
all — `out_df.set_index('index')` raises `KeyError` — so no output table
preserving the row count exists at this input. -/
theorem c3_empty_table_counterexample :
    lost_years_hld (some [⟨"USA", 2020, "M", 31, 70⟩])
      ⟨["country", "age", "sex", "year"], []⟩ none = .error (.keyError "index") := by
  decide

/-- C3 as amended: for every NON-EMPTY query table whose required columns are
present, whose per-row matching raises no exception, and whose reference
table is de-duplicated on its key (the spec's data-model invariant), each of
the three operations returns a table with exactly the same number of rows as
the input, in the same order: output row `k` is input row `k` with the
source-tagged cells appended; unmatched rows are padded with missing values,
never deleted.  For the SSA source the same holds for the empty table too;
`who.py` and `hld.py` instead raise `KeyError` on a zero-row table, as the
counterexample shows. -/
theorem c3_rowcount_order_amended :
    (∀ (refT : List SSARow) (df : DF) (cols : Option (List (String × String)))
      (m : List (String × String)) (bs : List (Nat × List Row)),
      SSAKeyUniq refT →
      resolveCols SSA_REQUIRED cols df.columns = .ok (.mapping m) →
      buildBlocks (fun r =>
          (ssaMatchRecord refT (colGet m "age") (colGet m "sex") (colGet m "year") r).map
            (fun p => p.2.map (ssaOutRow p.1))) false 0 df.rows = .ok bs →
      ∃ out : DF, lost_years_ssa (some refT) df cols = .ok out ∧
        out.rows.length = df.rows.length ∧
        ∀ (k : Nat) (hk : k < df.rows.length) (hk2 : k < out.rows.length),
          ∃ ext, out.rows.get ⟨k, hk2⟩ = df.rows.get ⟨k, hk⟩ ++ ext) ∧
    (∀ (refT : List WHORow) (df : DF) (cols : Option (List (String × String)))
      (m : List (String × String)) (rows2 : List Row) (bs : List (Nat × List Row)),
      WHOKeyUniq refT →
      resolveCols WHO_REQUIRED cols df.columns = .ok (.mapping m) →
      whoPrepRows (colGet m "sex") df.rows = .ok rows2 →
      buildBlocks (fun r =>
          (whoMatchRecord refT (colGet m "country") (colGet m "age")
            (colGet m "sex") (colGet m "year") r).map
            (fun s => s.map whoOutRow)) true 0 rows2 = .ok bs →
      (∀ r ∈ df.rows, RowCleanFor (colGet m "sex") r) →
      df.rows ≠ [] →
      ∃ out : DF, lost_years_who (some refT) df cols = .ok out ∧
        out.rows.length = df.rows.length ∧
        ∀ (k : Nat) (hk : k < df.rows.length) (hk2 : k < out.rows.length),
          ∃ ext, out.rows.get ⟨k, hk2⟩ = df.rows.get ⟨k, hk⟩ ++ ext) ∧
    (∀ (refT : List HLDRow) (df : DF) (cols : Option (List (String × String)))
      (m : List (String × String)) (rows2 : List Row) (bs : List (Nat × List Row)),
      resolveCols WHO_REQUIRED cols df.columns = .ok (.mapping m) →
      hldPrepRows (colGet m "sex") df.rows = .ok rows2 →
      buildBlocks (fun r =>
          (hldMatchRecord refT (colGet m "country") (colGet m "age")
            (colGet m "year") r).map hldBlockRows) true 0 rows2 = .ok bs →
      df.rows ≠ [] →
      ∃ out : DF, lost_years_hld (some refT) df cols = .ok out ∧
        out.rows.length = df.rows.length ∧
        ∀ (k : Nat) (hk : k < df.rows.length) (hk2 : k < out.rows.length),
          ∃ ext, out.rows.get ⟨k, hk2⟩ = df.rows.get ⟨k, hk⟩ ++ ext) := by
  refine ⟨?_, ?_, ?_⟩
  · -- SSA
    intro refT df cols m bs huniq hres hblocks
    obtain ⟨hidx, hpw⟩ := buildBlocks_indices _ _ df.rows 0 bs hblocks
    have hcontent := buildBlocks_content _ _ df.rows 0 bs hblocks
    have hall1 : ∀ b ∈ bs, b.2.length = 1 := by
      intro b hb
      obtain ⟨⟨r, hr, hfr⟩, hne2⟩ := hcontent b hb
      cases hm : ssaMatchRecord refT (colGet m "age") (colGet m "sex") (colGet m "year") r with
      | error e => rw [hm] at hfr; exact Except.noConfusion hfr
      | ok p =>
        rw [hm] at hfr
        rw [show Except.map (fun (p : Bool × List SSARow) => p.2.map (ssaOutRow p.1))
            (Except.ok p) = Except.ok (p.2.map (ssaOutRow p.1)) from rfl,
          Except.ok.injEq] at hfr
        have hle : p.2.length ≤ 1 := ssa_survivors_le_one huniq hm
        have hne3 : b.2 ≠ [] := hne2 rfl
        rw [← hfr] at hne3 ⊢
        rw [List.length_map]
        have hp2 : p.2 ≠ [] := by
          intro hnil
          rw [hnil] at hne3
          exact hne3 rfl
        have hpos : 0 < p.2.length := List.length_pos.mpr hp2
        omega
    rw [lost_years_ssa, hres]
    dsimp only
    rw [hblocks]
    dsimp only
    cases hbs : bs with
    | nil =>
      refine ⟨df, by simp, rfl, ?_⟩
      intro k hk hk2
      exact ⟨[], (List.append_nil _).symm⟩
    | cons b bs2 =>
      have hguard : (b :: bs2).all (fun x => x.2.length == 1) = true := by
        rw [List.all_eq_true]
        intro x hx
        have := hall1 x (hbs ▸ hx)
        simpa using this
      have hgather : ∀ j, (gatherIdx (b :: bs2) j).length ≤ 1 := by
        intro j
        refine gatherIdx_length_le_one (b :: bs2) (hbs ▸ hpw) ?_ j
        intro x hx
        exact le_of_eq (hall1 x (hbs ▸ hx))
      obtain ⟨exts, hlen, heq⟩ := joinAux_zip ssaOutCols (b :: bs2) hgather df.rows 0
      refine ⟨⟨df.columns ++ ssaOutCols, joinAux ssaOutCols (b :: bs2) 0 df.rows⟩,
        by simp [hguard], ?_, ?_⟩
      · show (joinAux ssaOutCols (b :: bs2) 0 df.rows).length = df.rows.length
        rw [heq, List.length_zipWith, hlen]
        exact Nat.min_self _
      · intro k hk hk2
        have hk2' : k < (List.zipWith (fun r e => r ++ e) df.rows exts).length := by
          rw [← heq]
          exact hk2
        obtain ⟨ext, hext⟩ := zipWith_append_get df.rows exts k hk hk2'
        refine ⟨ext, ?_⟩
        rw [List.get_of_eq heq ⟨k, hk2⟩]
        exact hext
  · -- WHO
    intro refT df cols m rows2 bs huniq hres hprep hblocks hclean hne
    have hrestore : rows2.map (whoRestoreRow (colGet m "sex")) = df.rows :=
      whoPrepRows_restore (colGet m "sex") df.rows rows2 hclean hprep
    have hr2ne : rows2 ≠ [] := by
      intro hnil
      rw [hnil] at hrestore
      exact hne hrestore.symm
    obtain ⟨hidx, hpw⟩ := buildBlocks_indices _ _ rows2 0 bs hblocks
    have hcontent := buildBlocks_content _ _ rows2 0 bs hblocks
    have hall1 : ∀ b ∈ bs, b.2.length ≤ 1 := by
      intro b hb
      obtain ⟨⟨r, hr, hfr⟩, _⟩ := hcontent b hb
      cases hm : whoMatchRecord refT (colGet m "country") (colGet m "age")
          (colGet m "sex") (colGet m "year") r with
      | error e => rw [hm] at hfr; exact Except.noConfusion hfr
      | ok s =>
        rw [hm] at hfr
        rw [show Except.map (fun (s : List WHORow) => s.map whoOutRow) (Except.ok s) =
            Except.ok (s.map whoOutRow) from rfl, Except.ok.injEq] at hfr
        rw [← hfr, List.length_map]
        exact who_survivors_le_one huniq hm
    have hgather : ∀ j, (gatherIdx bs j).length ≤ 1 := fun j =>
      gatherIdx_length_le_one bs hpw hall1 j
    obtain ⟨exts, hlen, heq⟩ := joinAux_zip whoOutCols bs hgather df.rows 0
    rw [lost_years_who, hres]
    dsimp only
    rw [hprep]
    dsimp only
    rw [hblocks]
    dsimp only
    have hr2e : rows2.isEmpty = false := by
      cases rows2 with
      | nil => exact absurd rfl hr2ne
      | cons a t => rfl
    rw [if_neg (by rw [hr2e]; exact Bool.false_ne_true)]
    rw [hrestore]
    refine ⟨⟨df.columns ++ whoOutCols, joinAux whoOutCols bs 0 df.rows⟩, rfl, ?_, ?_⟩
    · show (joinAux whoOutCols bs 0 df.rows).length = df.rows.length
      rw [heq, List.length_zipWith, hlen]
      exact Nat.min_self _
    · intro k hk hk2
      have hk2' : k < (List.zipWith (fun r e => r ++ e) df.rows exts).length := by
        rw [← heq]
        exact hk2
      obtain ⟨ext, hext⟩ := zipWith_append_get df.rows exts k hk hk2'
      refine ⟨ext, ?_⟩
      rw [List.get_of_eq heq ⟨k, hk2⟩]
      exact hext
  · -- HLD
    intro refT df cols m rows2 bs hres hprep hblocks hne
    obtain ⟨hidx, hpw⟩ := buildBlocks_indices _ _ rows2 0 bs hblocks
    have hcontent := buildBlocks_content _ _ rows2 0 bs hblocks
    have hall1 : ∀ b ∈ bs, b.2.length ≤ 1 := by
      intro b hb
      obtain ⟨⟨r, hr, hfr⟩, _⟩ := hcontent b hb
      cases hm : hldMatchRecord refT (colGet m "country") (colGet m "age")
          (colGet m "year") r with
      | error e => rw [hm] at hfr; exact Except.noConfusion hfr
      | ok res =>
        rw [hm] at hfr
        rw [show Except.map hldBlockRows (Except.ok res) = Except.ok (hldBlockRows res)
            from rfl, Except.ok.injEq] at hfr
        rw [← hfr]
        exact le_of_eq (hldBlockRows_length res)
    have hgather : ∀ j, (gatherIdx bs j).length ≤ 1 := fun j =>
      gatherIdx_length_le_one bs hpw hall1 j
    obtain ⟨exts, hlen, heq⟩ := joinAux_zip hldOutCols bs hgather df.rows 0
    rw [lost_years_hld, hres]
    dsimp only
    rw [hprep]
    dsimp only
    rw [hblocks]
    dsimp only
    have hde : df.rows.isEmpty = false := by
      cases hdr : df.rows with
      | nil => exact absurd hdr hne
      | cons a t => rfl
    rw [if_neg (by rw [hde]; exact Bool.false_ne_true)]
    refine ⟨⟨df.columns ++ hldOutCols, joinAux hldOutCols bs 0 df.rows⟩, rfl, ?_, ?_⟩
    · show (joinAux hldOutCols bs 0 df.rows).length = df.rows.length
      rw [heq, List.length_zipWith, hlen]
      exact Nat.min_self _
    · intro k hk hk2
      have hk2' : k < (List.zipWith (fun r e => r ++ e) df.rows exts).length := by
        rw [← heq]
        exact hk2
      obtain ⟨ext, hext⟩ := zipWith_append_get df.rows exts k hk hk2'
      refine ⟨ext, ?_⟩
      rw [List.get_of_eq heq ⟨k, hk2⟩]
      exact hext

/-- Witness for C3 as amended, on one-row tables in each source. -/
theorem c3_rowcount_order_witness :
    (∃ out : DF, lost_years_ssa (some [⟨30, 2020, 50, 55⟩])
        ⟨["age", "sex", "year"],
         [[("age", Cell.int 31), ("sex", Cell.str "M"), ("year", Cell.int 2019)]]⟩ none =
        .ok out ∧ out.rows.length = 1) ∧
    (∃ out : DF, lost_years_who (some [⟨"USA", 2020, "MLE", 30, 70⟩])
        ⟨["country", "age", "sex", "year"],
         [[("country", Cell.str "usa"), ("age", Cell.int 31),
           ("sex", Cell.str "M"), ("year", Cell.int 2019)]]⟩ none =
        .ok out ∧ out.rows.length = 1) ∧
    (∃ out : DF, lost_years_hld (some [⟨"USA", 2020, "M", 30, 70⟩])
        ⟨["country", "age", "sex", "year"],
         [[("country", Cell.str "USA"), ("age", Cell.int 31),
           ("sex", Cell.str "M"), ("year", Cell.int 2019)]]⟩ none =
        .ok out ∧ out.rows.length = 1) := by
  refine ⟨?_, ?_, ?_⟩
  · obtain ⟨out, h1, h2, h3⟩ := c3_rowcount_order_amended.1 [⟨30, 2020, 50, 55⟩]
      ⟨["age", "sex", "year"],
       [[("age", Cell.int 31), ("sex", Cell.str "M"), ("year", Cell.int 2019)]]⟩ none
      [("age", "age"), ("sex", "sex"), ("year", "year")]
      [(0, [[("ssa_age", Cell.int 30), ("ssa_year", Cell.int 2020),
             ("ssa_life_expectancy", Cell.int 50)]])]
      (by simp [SSAKeyUniq]) (by decide) (by decide)
    exact ⟨out, h1, h2⟩
  · obtain ⟨out, h1, h2, h3⟩ := c3_rowcount_order_amended.2.1 [⟨"USA", 2020, "MLE", 30, 70⟩]
      ⟨["country", "age", "sex", "year"],
       [[("country", Cell.str "usa"), ("age", Cell.int 31),
         ("sex", Cell.str "M"), ("year", Cell.int 2019)]]⟩ none
      [("country", "country"), ("age", "age"), ("sex", "sex"), ("year", "year")]
      [[("country", Cell.str "usa"), ("age", Cell.int 31),
        ("__sex", Cell.str "M"), ("year", Cell.int 2019), ("sex", Cell.str "MLE")]]
      [(0, [[("who_country", Cell.str "USA"), ("who_year", Cell.int 2020),
             ("who_sex", Cell.str "MLE"), ("who_age", Cell.int 30),
             ("who_life_expectancy", Cell.int 70)]])]
      (by simp [WHOKeyUniq]) (by decide) (by decide) (by decide) (by decide) (by decide)
    exact ⟨out, h1, h2⟩
  · obtain ⟨out, h1, h2, h3⟩ := c3_rowcount_order_amended.2.2 [⟨"USA", 2020, "M", 30, 70⟩]
      ⟨["country", "age", "sex", "year"],
       [[("country", Cell.str "USA"), ("age", Cell.int 31),
         ("sex", Cell.str "M"), ("year", Cell.int 2019)]]⟩ none
      [("country", "country"), ("age", "age"), ("sex", "sex"), ("year", "year")]
      [[("country", Cell.str "USA"), ("age", Cell.int 31),
        ("sex", Cell.str "M"), ("year", Cell.int 2019), ("__temp_sex", Cell.str "M")]]
      [(0, [[("hld_country", Cell.str "USA"), ("hld_age", Cell.int 30),
             ("hld_sex", Cell.str "M"), ("hld_year", Cell.int 2020),
             ("hld_life_expectancy", Cell.int 70)]])]
      (by decide) (by decide) (by decide) (by decide)
    exact ⟨out, h1, h2⟩

end LostYears
